import Mathlib

/-!
Verification of the maneuver layer of the `orbital` package
(`orbital/maneuver.py`), shallowly embedded in Lean 4.

The orbit representation, the apsides-to-elements conversion, the anomaly
conversions, the scoped state-save/restore utility and the floor-divmod
helper are external collaborators of this module (they live in
`orbital/elements.py` and `orbital/utilities.py`); they are modelled from
the specification, as noted on each such definition.  Everything else is
translated directly from `orbital/maneuver.py`.
-/

noncomputable section

namespace Orbital

/-- The mutable orbital state consumed by the maneuver layer.
Modelled from the spec: a structure exposing readable/writable orbital
elements `a` (semi-major axis), `e` (eccentricity), mean anomaly `M`,
epoch `t`, argument of pericenter `arg_pe`, and the attracting body's
`mean_radius` (field `R` here).  The velocity `v`, the true anomaly `f`,
the period `T` and the mean motion `n` are derived quantities, supplied
by the `Collab` record below. -/
structure Orbit where
  a : ℝ
  e : ℝ
  M : ℝ
  t : ℝ
  arg_pe : ℝ
  R : ℝ

/-- Modelled from the spec: the external collaborators this core consumes.
`vel a e M` is the velocity (a plane vector) of an orbit with elements
`(a, e)` observed at mean anomaly `M`; `setv o w` is the orbit obtained
from `o` by assigning the velocity `w` (the Orbit collaborator re-derives
the elements so that the state stays consistent); `mean_anomaly_from_true`
and `mean_anomaly_from_eccentric` convert true/eccentric anomaly to mean
anomaly given the eccentricity; `true_anomaly_from_mean` is the reading of
the derived property `orbit.f`; `n a` is the mean motion of an orbit with
semi-major axis `a`. -/
structure Collab where
  vel : ℝ → ℝ → ℝ → ℝ × ℝ
  setv : Orbit → ℝ × ℝ → Orbit
  mean_anomaly_from_true : ℝ → ℝ → ℝ
  mean_anomaly_from_eccentric : ℝ → ℝ → ℝ
  true_anomaly_from_mean : ℝ → ℝ → ℝ
  n : ℝ → ℝ

/-- Derived quantity `orbit.apocenter_radius = a * (1 + e)` (spec, section 3). -/
def apocenter_radius (o : Orbit) : ℝ := o.a * (1 + o.e)

/-- Derived quantity `orbit.pericenter_radius = a * (1 - e)` (spec, section 3). -/
def pericenter_radius (o : Orbit) : ℝ := o.a * (1 - o.e)

/-- Modelled from the spec: the external utility
`elements_for_apsides(apocenter_radius, pericenter_radius) -> (a, e)`,
the inverse of `apocenter_radius = a(1+e)`, `pericenter_radius = a(1-e)`. -/
def elements_for_apsides (ra rp : ℝ) : ℝ × ℝ :=
  ((ra + rp) / 2, (ra - rp) / (ra + rp))

/-- Modelled from the spec: the external period property `orbit.T`,
related to the mean motion by `n = 2π / T`. -/
def period (c : Collab) (a : ℝ) : ℝ := 2 * Real.pi / c.n a

/-- Modelled from the spec: the external floor-division-with-remainder
helper `divmod(x, y)` used for angle wrapping: quotient `⌊x / y⌋` and
remainder `x - y * ⌊x / y⌋`. -/
def divmod (x y : ℝ) : ℤ × ℝ := (⌊x / y⌋, x - y * ⌊x / y⌋)

/-- The impulse-operation variants of `orbital/maneuver.py` (every subclass
of `ImpulseOperation`), each carrying its target parameter. -/
inductive ImpulseOp where
  | SetApocenterRadiusTo (apocenter_radius : ℝ)
  | SetApocenterAltitudeTo (apocenter_altitude : ℝ)
  | ChangeApocenterBy (delta : ℝ)
  | SetPericenterRadiusTo (pericenter_radius : ℝ)
  | SetPericenterAltitudeTo (pericenter_altitude : ℝ)
  | ChangePericenterBy (delta : ℝ)
  | Circularise (raise_pericenter : Bool)

/-- The mean anomaly each impulse operation's `velocity_delta` moves to
before measuring velocities: `orbit.M = 0` (pericenter) for the
apocenter-affecting operations and `Circularise(raise_pericenter=False)`,
`orbit.M = pi` (apocenter) for the pericenter-affecting operations and
`Circularise(raise_pericenter=True)`. -/
def burn_anomaly : ImpulseOp → ℝ
  | .SetApocenterRadiusTo _ => 0
  | .SetApocenterAltitudeTo _ => 0
  | .ChangeApocenterBy _ => 0
  | .SetPericenterRadiusTo _ => Real.pi
  | .SetPericenterAltitudeTo _ => Real.pi
  | .ChangePericenterBy _ => Real.pi
  | .Circularise rp => if rp then Real.pi else 0

/-- The `elements_for_apsides` call each impulse operation makes, reading
the current orbit: the body of every `__apply__` method, and the target
elements computed inside every `velocity_delta`. -/
def target_elements (iop : ImpulseOp) (o : Orbit) : ℝ × ℝ :=
  match iop with
  | .SetApocenterRadiusTo r => elements_for_apsides r (pericenter_radius o)
  | .SetApocenterAltitudeTo alt => elements_for_apsides (o.R + alt) (pericenter_radius o)
  | .ChangeApocenterBy d => elements_for_apsides (apocenter_radius o + d) (pericenter_radius o)
  | .SetPericenterRadiusTo r => elements_for_apsides (apocenter_radius o) r
  | .SetPericenterAltitudeTo alt => elements_for_apsides (apocenter_radius o) (o.R + alt)
  | .ChangePericenterBy d => elements_for_apsides (apocenter_radius o) (pericenter_radius o + d)
  | .Circularise rp =>
      let radius := if rp then apocenter_radius o else pericenter_radius o
      elements_for_apsides radius radius

/-- The `__apply__` method of an impulse operation: compute the target
elements and write them onto the orbit's `a` and `e` in place. -/
def impulse_apply_direct (iop : ImpulseOp) (o : Orbit) : Orbit :=
  let p := target_elements iop o
  { o with a := p.1, e := p.2 }

/-- Modelled from the spec: the snapshot taken by the scoped state
save/restore utility `saved_state` — the orbit's full mutable state. -/
structure Snapshot where
  a : ℝ
  e : ℝ
  M : ℝ
  t : ℝ
  arg_pe : ℝ
  R : ℝ

/-- Modelled from the spec: taking the snapshot on entering `saved_state`. -/
def save_state (o : Orbit) : Snapshot :=
  { a := o.a, e := o.e, M := o.M, t := o.t, arg_pe := o.arg_pe, R := o.R }

/-- Modelled from the spec: leaving the `saved_state` scope writes every
saved field back onto the (possibly mutated) orbit. -/
def restore_state (s : Snapshot) (o : Orbit) : Orbit :=
  { o with a := s.a, e := s.e, M := s.M, t := s.t, arg_pe := s.arg_pe, R := s.R }

/-- The `velocity_delta` method of an impulse operation, with the mutation
it performs made explicit: inside `saved_state`, move to the burn anomaly,
read the old velocity, write the target elements, read the new velocity;
on exit the snapshot is restored.  Returns the pair
(`new_velocity - old_velocity`, orbit as left behind by the call). -/
def velocity_delta_run (c : Collab) (iop : ImpulseOp) (o : Orbit) : (ℝ × ℝ) × Orbit :=
  let s := save_state o
  let o1 := { o with M := burn_anomaly iop }
  let old_velocity := c.vel o1.a o1.e o1.M
  let p := target_elements iop o1
  let o2 := { o1 with a := p.1, e := p.2 }
  let new_velocity := c.vel o2.a o2.e o2.M
  (new_velocity - old_velocity, restore_state s o2)

/-- The value returned by `velocity_delta`. -/
def velocity_delta (c : Collab) (iop : ImpulseOp) (o : Orbit) : ℝ × ℝ :=
  (velocity_delta_run c iop o).1

/-- The impulse branch of `Maneuver.__apply__`:
`orbit.v += operation.velocity_delta(orbit)`, i.e. assign
`vel(a, e, M) + velocity_delta` through the Orbit collaborator's
velocity setter. -/
def impulse_apply_via_velocity (c : Collab) (iop : ImpulseOp) (o : Orbit) : Orbit :=
  c.setv o (c.vel o.a o.e o.M + velocity_delta c iop o)

/-- The anomaly keyword a time operation stores after construction. -/
inductive AnomKey where
  | M
  | E
  | f

/-- The keyword arguments handed to `PropagateAnomalyTo.__init__` /
`PropagateAnomalyBy.__init__`: for each of the valid names `M`, `E`, `f`,
`none` means the keyword was absent and `some w` that it was supplied with
value `w` (`some none` models passing `None`); `extra` lists the names of
any unknown keywords supplied. -/
structure PropagateKwargs where
  M : Option (Option ℝ)
  E : Option (Option ℝ)
  f : Option (Option ℝ)
  extra : List String

/-- What `PropagateAnomalyTo.__init__` / `PropagateAnomalyBy.__init__`
raise: `TypeError('Invalid kwargs: ...')`, `TypeError('Required argument
missing.')`, `ValueError('Only one anomaly parameter can be propagated.')`,
or the `KeyError` escaping from `dict.popitem()` on an empty dict. -/
inductive ConstructError where
  | typeErrorInvalidKwargs
  | typeErrorRequiredMissing
  | valueErrorMoreThanOne
  | keyErrorPopitem

/-- Whether a construction failure is an argument error (a `TypeError` or
`ValueError` raised by the constructor's own argument validation), as
opposed to the incidental `KeyError` out of `dict.popitem()`. -/
def ConstructError.isArgumentError : ConstructError → Bool
  | .typeErrorInvalidKwargs => true
  | .typeErrorRequiredMissing => true
  | .valueErrorMoreThanOne => true
  | .keyErrorPopitem => false

/-- The number of the three valid keywords supplied with a non-`None`
value: `sum(1 for x in kwargs.values() if x is not None)`. -/
def nonNullCount (k : PropagateKwargs) : Nat :=
  (match k.M with | some (some _) => 1 | _ => 0) +
  (match k.E with | some (some _) => 1 | _ => 0) +
  (match k.f with | some (some _) => 1 | _ => 0)

/-- The shared body of `PropagateAnomalyTo.__init__` and
`PropagateAnomalyBy.__init__` (the two are textually identical): reject
unknown keywords, reject an empty keyword dict, reject more than one
non-`None` anomaly, then drop the `None`-valued entries and pop the
remaining item — which raises `KeyError` when every supplied keyword was
`None`. -/
def propagate_init (k : PropagateKwargs) : Except ConstructError (AnomKey × ℝ) :=
  if !k.extra.isEmpty then
    .error .typeErrorInvalidKwargs
  else if k.M.isNone && k.E.isNone && k.f.isNone then
    .error .typeErrorRequiredMissing
  else if 1 < nonNullCount k then
    .error .valueErrorMoreThanOne
  else
    match k.M, k.E, k.f with
    | some (some x), _, _ => .ok (.M, x)
    | _, some (some x), _ => .ok (.E, x)
    | _, _, some (some x) => .ok (.f, x)
    | _, _, _ => .error .keyErrorPopitem

/-- The anomaly a successfully constructed time operation carries: the
key that was supplied together with its value. -/
inductive Anomaly where
  | M (x : ℝ)
  | E (x : ℝ)
  | f (x : ℝ)

/-- `PropagateAnomalyTo.time_delta(orbit)`: convert the stored anomaly to
mean anomaly using the orbit's current eccentricity, wrap forward by one
revolution if the target is behind the current state, and divide the
advance by the mean motion. -/
def time_delta_to (c : Collab) (an : Anomaly) (o : Orbit) : ℝ :=
  let Mt :=
    match an with
    | .f x => c.mean_anomaly_from_true o.e x
    | .E x => c.mean_anomaly_from_eccentric o.e x
    | .M x => x
  let Mt := if Mt < o.M then Mt + 2 * Real.pi else Mt
  (Mt - o.M) / c.n o.a

/-- `PropagateAnomalyBy.time_delta(orbit)`: for a true or eccentric
anomaly, split off whole orbits with `divmod(amount, 2*pi)`, convert the
remainder to mean anomaly and return `orbits * orbit.T + M / orbit.n`;
for a mean anomaly, return `amount / orbit.n` directly. -/
def time_delta_by (c : Collab) (an : Anomaly) (o : Orbit) : ℝ :=
  match an with
  | .f x =>
      let p := divmod x (2 * Real.pi)
      let M := c.mean_anomaly_from_true o.e p.2
      p.1 * period c o.a + M / c.n o.a
  | .E x =>
      let p := divmod x (2 * Real.pi)
      let M := c.mean_anomaly_from_eccentric o.e p.2
      p.1 * period c o.a + M / c.n o.a
  | .M x => x / c.n o.a

/-- `SetPericenterHere.__apply__`: `orbit.arg_pe = orbit.f; orbit.f = 0`.
Reading `orbit.f` goes through the true-anomaly conversion; assigning
`orbit.f = 0` makes the Orbit collaborator store the corresponding mean
anomaly. -/
def set_pericenter_here_apply (c : Collab) (o : Orbit) : Orbit :=
  let fcur := c.true_anomaly_from_mean o.e o.M
  { o with arg_pe := fcur, M := c.mean_anomaly_from_true o.e 0 }

/-- The operation variants of `orbital/maneuver.py` as dispatched on by
`Maneuver.__apply__`: the impulse operations, the two time operations
(already past their constructor) and `SetPericenterHere`. -/
inductive Operation where
  | impulse (iop : ImpulseOp)
  | PropagateAnomalyTo (an : Anomaly)
  | PropagateAnomalyBy (an : Anomaly)
  | SetPericenterHere

/-- `hasattr(operation, '__apply__')`: which operations define the
direct-rewrite shortcut.  Every impulse operation of this module and
`SetPericenterHere` do; the two time operations do not. -/
def hasDirectApply : Operation → Bool
  | .impulse _ => true
  | .SetPericenterHere => true
  | .PropagateAnomalyTo _ => false
  | .PropagateAnomalyBy _ => false

/-- The `operation.__apply__(orbit)` call made by `Maneuver.__apply__`
when the shortcut exists. -/
def direct_apply (c : Collab) (op : Operation) (o : Orbit) : Orbit :=
  match op with
  | .impulse iop => impulse_apply_direct iop o
  | .SetPericenterHere => set_pericenter_here_apply c o
  | _ => o

/-- One iteration of the loop in `Maneuver.__apply__`: use `__apply__`
when the operation has one, else add the velocity delta to `orbit.v` for
an impulse operation, else add the time delta to `orbit.t` for a time
operation. -/
def apply_operation (c : Collab) (op : Operation) (o : Orbit) : Orbit :=
  if hasDirectApply op then
    direct_apply c op o
  else
    match op with
    | .impulse iop => impulse_apply_via_velocity c iop o
    | .PropagateAnomalyTo an => { o with t := o.t + time_delta_to c an o }
    | .PropagateAnomalyBy an => { o with t := o.t + time_delta_by c an o }
    | .SetPericenterHere => o

/-- A `Maneuver`: an ordered list of operations. -/
structure Maneuver where
  operations : List Operation

/-- The `Maneuver(operations)` constructor applied to a single operation:
a non-list argument is wrapped into a one-element list. -/
def Maneuver.single (op : Operation) : Maneuver := ⟨[op]⟩

/-- `Maneuver.__apply__(orbit)`: fold the operations over the orbit in
order. -/
def Maneuver.apply (c : Collab) (m : Maneuver) (o : Orbit) : Orbit :=
  m.operations.foldl (fun acc op => apply_operation c op acc) o

/-- `Maneuver.hohmann_transfer_to(orbit)`. -/
def Maneuver.hohmann_transfer_to (tgt : Orbit) : Maneuver :=
  ⟨[Operation.SetPericenterHere,
    Operation.impulse (.SetApocenterRadiusTo (apocenter_radius tgt)),
    Operation.PropagateAnomalyTo (.M Real.pi),
    Operation.impulse (.Circularise true)]⟩

/-- The failure a `Maneuver` factory can signal. -/
inductive ManeuverError where
  | notImplementedError

/-- `Maneuver.bielliptic_transfer()`: raises `NotImplementedError` before
constructing any `Maneuver`; it takes no orbit at all. -/
def Maneuver.bielliptic_transfer : Except ManeuverError Maneuver :=
  .error .notImplementedError

/-- A concrete instantiation of the external collaborators, used to
exercise the theorems below on closed inputs: the velocity of an orbit is
represented by its element pair, the velocity setter writes that pair
back, the anomaly conversions are the (circular-orbit) identity and the
mean motion is constant. -/
def c0 : Collab where
  vel := fun a e _ => (a, e)
  setv := fun o w => { o with a := w.1, e := w.2 }
  mean_anomaly_from_true := fun _ x => x
  mean_anomaly_from_eccentric := fun _ x => x
  true_anomaly_from_mean := fun _ x => x
  n := fun _ => 1

/-- `c0` with the velocity collaborators replaced by degenerate ones. -/
def c0' : Collab :=
  { c0 with vel := fun _ _ _ => (0, 0), setv := fun o _ => o }

/-- A concrete circular orbit of radius 1. -/
def o0 : Orbit where
  a := 1
  e := 0
  M := 0
  t := 0
  arg_pe := 0
  R := 0

/-- A concrete target orbit of radius 3. -/
def o3 : Orbit where
  a := 3
  e := 0
  M := 0
  t := 0
  arg_pe := 0
  R := 0

/-- A collaborator whose velocity genuinely depends on the anomaly:
`vel a e M = (a + e * M, e)`.  Its setter `setv o w = { o with
a := w.1 - w.2 * o.M, e := w.2 }` inverts `vel` at the orbit's current
anomaly for every orbit, so the pair satisfies the Orbit consistency
contract everywhere. -/
def cbad : Collab :=
  { c0 with
    vel := fun a e M => (a + e * M, e)
    setv := fun o w => { o with a := w.1 - w.2 * o.M, e := w.2 } }

/-- A concrete orbit that is not at the pericenter: `M = 1`. -/
def obad : Orbit where
  a := 1
  e := 0
  M := 1
  t := 0
  arg_pe := 0
  R := 0

/-- The keyword dict `{'M': None}`: a keyword was supplied, but every
supplied value is `None`. -/
def kwargsAllNone : PropagateKwargs where
  M := some none
  E := none
  f := none
  extra := []

/-- The keyword dict `{'M': 0.5, 'E': None, 'f': None}`: exactly one
non-`None` anomaly, the other two passed explicitly as `None`. -/
def kwargsOneGood : PropagateKwargs where
  M := some (some 0.5)
  E := some none
  f := some none
  extra := []

/-- The keyword dict `{'M': 0.1, 'f': 0.2}`: two non-`None` anomalies. -/
def kwargsTwo : PropagateKwargs where
  M := some (some 0.1)
  E := none
  f := some (some 0.2)
  extra := []

/-- The keyword dict `{'x': 1.0}`: an unknown keyword name. -/
def kwargsUnknown : PropagateKwargs where
  M := none
  E := none
  f := none
  extra := ["x"]

/-- The target elements an impulse operation computes do not depend on the
orbit's anomaly, so moving to the burn anomaly before computing them (as
`velocity_delta` does) reads the same radii as `__apply__`. -/
theorem target_elements_anomaly_irrelevant (iop : ImpulseOp) (o : Orbit) (m : ℝ) :
    target_elements iop { o with M := m } = target_elements iop o := by
  cases iop <;> rfl

/-- C8: `Maneuver.bielliptic_transfer()` raises `NotImplementedError` and
performs no orbit mutation — it fails before any `Maneuver` is
constructed, and its signature never receives an orbit. -/
theorem bielliptic_transfer_raises_not_implemented :
    Maneuver.bielliptic_transfer = Except.error ManeuverError.notImplementedError := rfl

/-- C2: `velocity_delta(orbit)`, called on its own, leaves the orbit's
state exactly unchanged: the snapshot taken on entry is written back over
every mutated field before the value is returned, so `a`, `e`, `M`, `t`
(and hence every derived quantity such as `v`) are restored. -/
theorem velocity_delta_restores_orbit (c : Collab) (iop : ImpulseOp) (o : Orbit) :
    (velocity_delta_run c iop o).2 = o := rfl

/-- C7: `Circularise(raise_pericenter=True).__apply__` makes the
pericenter radius and the apocenter radius both equal to the original
apocenter radius with eccentricity 0, and
`Circularise(raise_pericenter=False).__apply__` makes both equal to the
original pericenter radius with eccentricity 0. -/
theorem circularise_direct_sets_both_apsides (o : Orbit) :
    pericenter_radius (impulse_apply_direct (.Circularise true) o) = apocenter_radius o ∧
    apocenter_radius (impulse_apply_direct (.Circularise true) o) = apocenter_radius o ∧
    (impulse_apply_direct (.Circularise true) o).e = 0 ∧
    pericenter_radius (impulse_apply_direct (.Circularise false) o) = pericenter_radius o ∧
    apocenter_radius (impulse_apply_direct (.Circularise false) o) = pericenter_radius o ∧
    (impulse_apply_direct (.Circularise false) o).e = 0 := by
  refine ⟨?_, ?_, ?_, ?_, ?_, ?_⟩ <;>
    simp [impulse_apply_direct, target_elements, elements_for_apsides,
      pericenter_radius, apocenter_radius]

/-- C10: `PropagateAnomalyBy(M=x).time_delta(orbit)` is exactly
`x / orbit.n`, with no wrapping or floor-division; it is negative whenever
`x` is negative (given a positive mean motion), and it never reads the
orbit's eccentricity. -/
theorem propagate_anomaly_by_mean_is_plain_division (c : Collab) (o : Orbit) (x : ℝ)
    (hn : 0 < c.n o.a) :
    time_delta_by c (.M x) o = x / c.n o.a ∧
    (x < 0 → time_delta_by c (.M x) o < 0) ∧
    (∀ e' : ℝ, time_delta_by c (.M x) { o with e := e' } = time_delta_by c (.M x) o) := by
  refine ⟨rfl, ?_, fun e' => rfl⟩
  intro hx
  exact div_neg_of_neg_of_pos hx hn

theorem propagate_anomaly_by_mean_is_plain_division_witness :
    0 < c0.n o0.a ∧
    (time_delta_by c0 (.M (-1)) o0 = -1 / c0.n o0.a ∧
      ((-1 : ℝ) < 0 → time_delta_by c0 (.M (-1)) o0 < 0) ∧
      (∀ e' : ℝ, time_delta_by c0 (.M (-1)) { o0 with e := e' } =
        time_delta_by c0 (.M (-1)) o0)) :=
  ⟨by norm_num [c0], propagate_anomaly_by_mean_is_plain_division c0 o0 (-1) (by norm_num [c0])⟩

/-- C5: `PropagateAnomalyBy.time_delta` equals
`whole_orbits * orbit.T + M_remainder / orbit.n` where
`(whole_orbits, remainder) = divmod(amount, 2*pi)` and only the remainder
goes through the anomaly conversion (the conversion for a mean anomaly
being the identity); in particular `PropagateAnomalyBy(M=3*2*pi + 0.5)`
yields `3*T + 0.5/n`. -/
theorem propagate_anomaly_by_decomposition (c : Collab) (o : Orbit) (x : ℝ) :
    time_delta_by c (.M x) o =
      (divmod x (2 * Real.pi)).1 * period c o.a + (divmod x (2 * Real.pi)).2 / c.n o.a ∧
    time_delta_by c (.f x) o =
      (divmod x (2 * Real.pi)).1 * period c o.a +
        c.mean_anomaly_from_true o.e (divmod x (2 * Real.pi)).2 / c.n o.a ∧
    time_delta_by c (.E x) o =
      (divmod x (2 * Real.pi)).1 * period c o.a +
        c.mean_anomaly_from_eccentric o.e (divmod x (2 * Real.pi)).2 / c.n o.a ∧
    time_delta_by c (.M (3 * (2 * Real.pi) + 0.5)) o =
      3 * period c o.a + 0.5 / c.n o.a := by
  refine ⟨?_, rfl, rfl, ?_⟩
  · simp only [time_delta_by, divmod, period]
    rw [← mul_div_assoc, div_add_div_same]
    congr 1
    ring
  · simp only [time_delta_by, period]
    rw [← mul_div_assoc, div_add_div_same]

/-- C3: constructing `PropagateAnomalyTo` / `PropagateAnomalyBy` with a
keyword supplied but every value `None` does not raise an argument error:
the arity checks all pass and the constructor dies in `dict.popitem()`
with a `KeyError` — while construction with exactly one non-`None`
anomaly (the other two explicitly `None`) succeeds, and the unknown-name
and two-anomaly cases raise genuine argument errors. -/
theorem propagate_init_all_none_raises_keyerror :
    propagate_init kwargsAllNone = Except.error ConstructError.keyErrorPopitem ∧
    ConstructError.keyErrorPopitem.isArgumentError = false ∧
    propagate_init kwargsOneGood = Except.ok (AnomKey.M, (0.5 : ℝ)) ∧
    propagate_init kwargsTwo = Except.error ConstructError.valueErrorMoreThanOne ∧
    propagate_init kwargsUnknown = Except.error ConstructError.typeErrorInvalidKwargs ∧
    propagate_init { M := none, E := none, f := none, extra := [] } =
      Except.error ConstructError.typeErrorRequiredMissing :=
  ⟨rfl, rfl, rfl, rfl, rfl, rfl⟩

/-- C4: with the target mean anomaly and the orbit's mean anomaly both in
`[0, 2*pi)` and a positive mean motion,
`PropagateAnomalyTo(M=target).time_delta(orbit)` is nonnegative, is zero
exactly when the target equals the current mean anomaly, and equals the
wrapped difference (one added revolution when the target is behind the
current state, none otherwise) divided by the mean motion. -/
theorem propagate_anomaly_to_time_delta_nonneg (c : Collab) (o : Orbit) (target : ℝ)
    (h0 : 0 ≤ target) (h1 : target < 2 * Real.pi)
    (h2 : 0 ≤ o.M) (h3 : o.M < 2 * Real.pi)
    (hn : 0 < c.n o.a) :
    0 ≤ time_delta_to c (.M target) o ∧
    (time_delta_to c (.M target) o = 0 ↔ target = o.M) ∧
    time_delta_to c (.M target) o =
      ((if target < o.M then target + 2 * Real.pi else target) - o.M) / c.n o.a := by
  simp only [time_delta_to]
  by_cases hlt : target < o.M
  · rw [if_pos hlt]
    have hpos : 0 < target + 2 * Real.pi - o.M := by linarith
    refine ⟨le_of_lt (div_pos hpos hn), ?_, trivial⟩
    constructor
    · intro h
      exact absurd h (div_ne_zero hpos.ne' hn.ne')
    · intro h
      exact absurd h hlt.ne
  · rw [if_neg hlt]
    have hge : 0 ≤ target - o.M := by linarith [not_lt.mp hlt]
    refine ⟨div_nonneg hge hn.le, ?_, trivial⟩
    rw [div_eq_zero_iff]
    constructor
    · intro h
      rcases h with h | h
      · linarith [sub_eq_zero.mp h]
      · exact absurd h hn.ne'
    · intro h
      exact Or.inl (by rw [h, sub_self])

theorem propagate_anomaly_to_time_delta_nonneg_witness :
    (0 : ℝ) ≤ 0 ∧ (0 : ℝ) < 2 * Real.pi ∧ 0 ≤ o0.M ∧ o0.M < 2 * Real.pi ∧ 0 < c0.n o0.a ∧
    (0 ≤ time_delta_to c0 (.M 0) o0 ∧
      (time_delta_to c0 (.M 0) o0 = 0 ↔ (0 : ℝ) = o0.M) ∧
      time_delta_to c0 (.M 0) o0 =
        ((if (0 : ℝ) < o0.M then (0 : ℝ) + 2 * Real.pi else 0) - o0.M) / c0.n o0.a) :=
  ⟨le_refl 0, Real.two_pi_pos, by norm_num [o0], by simpa [o0] using Real.two_pi_pos,
    by norm_num [c0],
    propagate_anomaly_to_time_delta_nonneg c0 o0 0 (le_refl 0) Real.two_pi_pos
      (by norm_num [o0]) (by simpa [o0] using Real.two_pi_pos) (by norm_num [c0])⟩

/-- C1, counterexample to the unrestricted claim: the collaborator `cbad`
satisfies the Orbit consistency contract for every orbit (first
conjunct), yet for the orbit `obad`, whose mean anomaly 1 is off the
`M = 0` burn apside of `SetApocenterRadiusTo(3)`, adding the velocity
delta to `orbit.v` re-derives semi-major axis `3/2` while the direct
rewrite produces `2`: the two paths do not reach the same final
`(a, e)` for every orbit. -/
theorem impulse_velocity_delta_differs_off_apside :
    (∀ (o : Orbit) (a' e' : ℝ),
      cbad.setv o (cbad.vel a' e' o.M) = { o with a := a', e := e' }) ∧
    (impulse_apply_via_velocity cbad (.SetApocenterRadiusTo 3) obad).a = 3 / 2 ∧
    (impulse_apply_direct (.SetApocenterRadiusTo 3) obad).a = 2 ∧
    impulse_apply_via_velocity cbad (.SetApocenterRadiusTo 3) obad ≠
      impulse_apply_direct (.SetApocenterRadiusTo 3) obad := by
  have hcontract : ∀ (o : Orbit) (a' e' : ℝ),
      cbad.setv o (cbad.vel a' e' o.M) = { o with a := a', e := e' } := by
    intro o a' e'
    simp only [cbad, c0]
    congr 1
    ring
  have hva : (impulse_apply_via_velocity cbad (.SetApocenterRadiusTo 3) obad).a = 3 / 2 := by
    norm_num [impulse_apply_via_velocity, velocity_delta, velocity_delta_run,
      target_elements, elements_for_apsides, pericenter_radius, burn_anomaly,
      cbad, c0, obad, Prod.ext_iff]
  have hda : (impulse_apply_direct (.SetApocenterRadiusTo 3) obad).a = 2 := by
    norm_num [impulse_apply_direct, target_elements, elements_for_apsides,
      pericenter_radius, obad]
  refine ⟨hcontract, hva, hda, fun h => ?_⟩
  rw [h, hda] at hva
  norm_num at hva

/-- C1: for an orbit sitting at the apside where the impulse operation
computes its burn (its documented precondition), and for any velocity
model satisfying the Orbit collaborator's consistency contract (assigning
the velocity an orbit with elements `(a', e')` would have at the current
anomaly re-derives exactly those elements), adding
`velocity_delta(orbit)` to `orbit.v` — the impulse branch of
`Maneuver.__apply__` — produces the same final elements as the direct
rewrite `__apply__`. -/
theorem impulse_velocity_delta_refines_direct (c : Collab)
    (hsetv : ∀ (o : Orbit) (a' e' : ℝ),
      c.setv o (c.vel a' e' o.M) = { o with a := a', e := e' })
    (iop : ImpulseOp) (o : Orbit) (hM : o.M = burn_anomaly iop) :
    impulse_apply_via_velocity c iop o = impulse_apply_direct iop o := by
  have key : c.vel o.a o.e o.M + velocity_delta c iop o =
      c.vel (target_elements iop o).1 (target_elements iop o).2 o.M := by
    simp only [velocity_delta, velocity_delta_run,
      target_elements_anomaly_irrelevant, ← hM]
    abel
  rw [impulse_apply_via_velocity, key, hsetv]
  rfl

theorem impulse_velocity_delta_refines_direct_witness :
    (∀ (o : Orbit) (a' e' : ℝ),
      c0.setv o (c0.vel a' e' o.M) = { o with a := a', e := e' }) ∧
    o0.M = burn_anomaly (.SetApocenterRadiusTo 3) ∧
    impulse_apply_via_velocity c0 (.SetApocenterRadiusTo 3) o0 =
      impulse_apply_direct (.SetApocenterRadiusTo 3) o0 :=
  ⟨fun _ _ _ => rfl, rfl,
    impulse_velocity_delta_refines_direct c0 (fun _ _ _ => rfl)
      (.SetApocenterRadiusTo 3) o0 rfl⟩

/-- C9: every impulse operation of this module defines `__apply__`, and
since `Maneuver.__apply__` checks for `__apply__` before the impulse
branch, applying any maneuver built from this module's operation variants
never executes the velocity-delta branch: the result does not depend on
the velocity collaborators (`orbit.v` reading and assignment) at all, so
`orbit.v` is never assigned. -/
theorem maneuver_apply_never_runs_velocity_branch :
    (∀ iop : ImpulseOp, hasDirectApply (Operation.impulse iop) = true) ∧
    ∀ c c' : Collab,
      c.mean_anomaly_from_true = c'.mean_anomaly_from_true →
      c.mean_anomaly_from_eccentric = c'.mean_anomaly_from_eccentric →
      c.true_anomaly_from_mean = c'.true_anomaly_from_mean →
      c.n = c'.n →
      ∀ (m : Maneuver) (o : Orbit), Maneuver.apply c m o = Maneuver.apply c' m o := by
  constructor
  · intro iop
    rfl
  · intro c c' h1 h2 h3 h4 m o
    have hop : ∀ (op : Operation) (o : Orbit),
        apply_operation c op o = apply_operation c' op o := by
      intro op o
      cases op with
      | impulse iop => rfl
      | SetPericenterHere =>
          simp [apply_operation, hasDirectApply, direct_apply,
            set_pericenter_here_apply, h1, h3]
      | PropagateAnomalyTo an =>
          cases an <;>
            simp [apply_operation, hasDirectApply, time_delta_to, h1, h2, h4]
      | PropagateAnomalyBy an =>
          cases an <;>
            simp [apply_operation, hasDirectApply, time_delta_by, period, h1, h2, h4]
    obtain ⟨ops⟩ := m
    simp only [Maneuver.apply]
    induction ops generalizing o with
    | nil => rfl
    | cons op rest ih =>
        simp only [List.foldl_cons]
        rw [hop]
        exact ih _

theorem maneuver_apply_never_runs_velocity_branch_witness :
    hasDirectApply (Operation.impulse (.Circularise true)) = true ∧
    c0.mean_anomaly_from_true = c0'.mean_anomaly_from_true ∧
    c0.mean_anomaly_from_eccentric = c0'.mean_anomaly_from_eccentric ∧
    c0.true_anomaly_from_mean = c0'.true_anomaly_from_mean ∧
    c0.n = c0'.n ∧
    Maneuver.apply c0 (Maneuver.hohmann_transfer_to o3) o0 =
      Maneuver.apply c0' (Maneuver.hohmann_transfer_to o3) o0 :=
  ⟨maneuver_apply_never_runs_velocity_branch.1 (.Circularise true), rfl, rfl, rfl, rfl,
    maneuver_apply_never_runs_velocity_branch.2 c0 c0' rfl rfl rfl rfl
      (Maneuver.hohmann_transfer_to o3) o0⟩

/-- C6: applied to a circular orbit of radius `r1 = o.a` whose target has
apocenter radius `r2 > r1`, `Maneuver.hohmann_transfer_to(target)`
consists of exactly
`[SetPericenterHere(), SetApocenterRadiusTo(target.apocenter_radius),
PropagateAnomalyTo(M=pi), Circularise()]` in that order, and applying it
leaves the orbit with apocenter radius `r2`, eccentricity `0`, and epoch
advanced by half the period of the transfer ellipse (whose semi-major
axis is `(r2 + r1) / 2`). -/
theorem hohmann_transfer_to_correct (c : Collab) (o tgt : Orbit)
    (he : o.e = 0) (ha : 0 < o.a) (hr : o.a < apocenter_radius tgt)
    (hconv : c.mean_anomaly_from_true 0 0 = 0) :
    (Maneuver.hohmann_transfer_to tgt).operations =
      [Operation.SetPericenterHere,
       Operation.impulse (.SetApocenterRadiusTo (apocenter_radius tgt)),
       Operation.PropagateAnomalyTo (.M Real.pi),
       Operation.impulse (.Circularise true)] ∧
    apocenter_radius (Maneuver.apply c (Maneuver.hohmann_transfer_to tgt) o) =
      apocenter_radius tgt ∧
    (Maneuver.apply c (Maneuver.hohmann_transfer_to tgt) o).e = 0 ∧
    (Maneuver.apply c (Maneuver.hohmann_transfer_to tgt) o).t =
      o.t + period c ((apocenter_radius tgt + o.a) / 2) / 2 := by
  have hA : 0 < apocenter_radius tgt := lt_trans ha hr
  have hAP : apocenter_radius tgt + o.a ≠ 0 := by positivity
  have hπ : ¬ Real.pi < 0 := not_lt.mpr Real.pi_pos.le
  have h1 : apply_operation c Operation.SetPericenterHere o =
      { o with arg_pe := c.true_anomaly_from_mean o.e o.M, M := 0 } := by
    simp [apply_operation, hasDirectApply, direct_apply, set_pericenter_here_apply,
      he, hconv]
  have h2 : apply_operation c
        (Operation.impulse (.SetApocenterRadiusTo (apocenter_radius tgt)))
        { o with arg_pe := c.true_anomaly_from_mean o.e o.M, M := 0 } =
      { o with
        arg_pe := c.true_anomaly_from_mean o.e o.M
        M := 0
        a := (apocenter_radius tgt + o.a) / 2
        e := (apocenter_radius tgt - o.a) / (apocenter_radius tgt + o.a) } := by
    simp [apply_operation, hasDirectApply, direct_apply, impulse_apply_direct,
      target_elements, elements_for_apsides, pericenter_radius, he]
  have h3 : apply_operation c (Operation.PropagateAnomalyTo (.M Real.pi))
      { o with
        arg_pe := c.true_anomaly_from_mean o.e o.M
        M := 0
        a := (apocenter_radius tgt + o.a) / 2
        e := (apocenter_radius tgt - o.a) / (apocenter_radius tgt + o.a) } =
      { o with
        arg_pe := c.true_anomaly_from_mean o.e o.M
        M := 0
        a := (apocenter_radius tgt + o.a) / 2
        e := (apocenter_radius tgt - o.a) / (apocenter_radius tgt + o.a)
        t := o.t + Real.pi / c.n ((apocenter_radius tgt + o.a) / 2) } := by
    simp [apply_operation, hasDirectApply, time_delta_to, hπ]
  have hrad : ((apocenter_radius tgt + o.a) / 2) *
      (1 + (apocenter_radius tgt - o.a) / (apocenter_radius tgt + o.a)) =
      apocenter_radius tgt := by
    field_simp
    ring
  have hrad2 : apocenter_radius
      { o with
        arg_pe := c.true_anomaly_from_mean o.e o.M
        M := 0
        a := (apocenter_radius tgt + o.a) / 2
        e := (apocenter_radius tgt - o.a) / (apocenter_radius tgt + o.a)
        t := o.t + Real.pi / c.n ((apocenter_radius tgt + o.a) / 2) } =
      apocenter_radius tgt := by
    simp only [apocenter_radius]
    exact hrad
  have h4 : apply_operation c (Operation.impulse (.Circularise true))
      { o with
        arg_pe := c.true_anomaly_from_mean o.e o.M
        M := 0
        a := (apocenter_radius tgt + o.a) / 2
        e := (apocenter_radius tgt - o.a) / (apocenter_radius tgt + o.a)
        t := o.t + Real.pi / c.n ((apocenter_radius tgt + o.a) / 2) } =
      { o with
        arg_pe := c.true_anomaly_from_mean o.e o.M
        M := 0
        a := apocenter_radius tgt
        e := 0
        t := o.t + Real.pi / c.n ((apocenter_radius tgt + o.a) / 2) } := by
    simp only [apply_operation, hasDirectApply, if_true, direct_apply,
      impulse_apply_direct, target_elements, if_pos, elements_for_apsides, hrad2]
    simp [add_self_div_two]
  have happ : Maneuver.apply c (Maneuver.hohmann_transfer_to tgt) o =
      { o with
        arg_pe := c.true_anomaly_from_mean o.e o.M
        M := 0
        a := apocenter_radius tgt
        e := 0
        t := o.t + Real.pi / c.n ((apocenter_radius tgt + o.a) / 2) } := by
    simp only [Maneuver.apply, Maneuver.hohmann_transfer_to, List.foldl_cons,
      List.foldl_nil]
    rw [h1, h2, h3, h4]
  refine ⟨rfl, ?_, ?_, ?_⟩
  · rw [happ]
    simp [apocenter_radius]
  · rw [happ]
  · rw [happ]
    rw [period, div_div, mul_comm (c.n ((apocenter_radius tgt + o.a) / 2)) 2,
      mul_div_mul_left _ _ (two_ne_zero)]

theorem hohmann_transfer_to_correct_witness :
    o0.e = 0 ∧ 0 < o0.a ∧ o0.a < apocenter_radius o3 ∧
    c0.mean_anomaly_from_true 0 0 = 0 ∧
    ((Maneuver.hohmann_transfer_to o3).operations =
      [Operation.SetPericenterHere,
       Operation.impulse (.SetApocenterRadiusTo (apocenter_radius o3)),
       Operation.PropagateAnomalyTo (.M Real.pi),
       Operation.impulse (.Circularise true)] ∧
     apocenter_radius (Maneuver.apply c0 (Maneuver.hohmann_transfer_to o3) o0) =
       apocenter_radius o3 ∧
     (Maneuver.apply c0 (Maneuver.hohmann_transfer_to o3) o0).e = 0 ∧
     (Maneuver.apply c0 (Maneuver.hohmann_transfer_to o3) o0).t =
       o0.t + period c0 ((apocenter_radius o3 + o0.a) / 2) / 2) :=
  ⟨rfl, by norm_num [o0], by norm_num [o0, o3, apocenter_radius], rfl,
    hohmann_transfer_to_correct c0 o0 o3 rfl (by norm_num [o0])
      (by norm_num [o0, o3, apocenter_radius]) rfl⟩

end Orbital
